import Mathlib

/-!
A shallow embedding of the Sonic bundle-simulation core:

* `ethapi.CallBundle` (plus its helpers `processTransactionResult`,
  `prepareFinalResult`, `GetEVM`) from the `ethapi` package, and
* `filters.simulateTx` from `gossip/filters/simulate.go`.

Machine integers are modelled as `Nat`/`Int` with explicit reduction
modulo `2^64` where the Go code works in `uint64`/`int64`; `big.Int`
values are modelled as unbounded `Int`.  External collaborators
(transaction decoding, state resolution, the EVM itself, the fee-market
formula, signature recovery) are modelled as oracle fields of a backend
record, mirroring the Go interfaces they are consumed through.  Fallible
Go calls are `Except String`; a Go runtime panic (in this code the only
source is `big.Int.Div` with a zero divisor) is a distinct `Outcome.panic`.
-/

namespace Sonic

/-! ## Low-level helpers: 64-bit arithmetic, hex encoding -/

/-- `2^64`, the modulus of Go's `uint64` arithmetic. -/
def two64 : Nat := 2 ^ 64

/-- Go's `int64(u)` conversion of a `uint64` value: reinterpret mod `2^64`
into the signed range `[-2^63, 2^63)`. -/
def toInt64 (n : Nat) : Int :=
  let m := n % two64
  if m < 2 ^ 63 then (m : Int) else (m : Int) - (two64 : Int)

/-- Go's `big.Int.Div` (Euclidean division, `0 ≤ remainder < |divisor|`);
it panics when the divisor is zero, modelled as `none`. -/
def goBigDiv (x y : Int) : Option Int :=
  if y = 0 then none else some (Int.ediv x y)

/-- Lowercase hex digit for a nibble, as in Go's `encoding/hex`. -/
def hexChar (n : Nat) : Char :=
  if n < 10 then Char.ofNat (48 + n) else Char.ofNat (87 + n % 16)

/-- Two lowercase hex characters for one byte. -/
def byteToHex (b : Nat) : List Char :=
  [hexChar (b / 16 % 16), hexChar (b % 16)]

/-- Lowercase hex string of a byte sequence (Go `hex.Encode` /
`common.Bytes2Hex`). -/
def bytesToHex (bs : List Nat) : String :=
  String.mk (bs.foldr (fun b acc => byteToHex b ++ acc) [])

/-- Go `string(b)` on a byte slice, modelled byte-by-byte. -/
def bytesAsString (bs : List Nat) : String :=
  String.mk (bs.map Char.ofNat)

/-! ## Keccak-256 (the `sha3.NewLegacyKeccak256` collaborator)

A faithful executable model of legacy Keccak-256 (multi-rate padding
`0x01 … 0x80`, rate 136 bytes), used by `CallBundle` for the bundle
identifier.  The sponge state is a list of 25 lanes, each a `Nat`
kept below `2^64`; lane `(x, y)` sits at index `x + 5*y`. -/

/-- 64-bit left rotation. -/
def rotl64 (x n : Nat) : Nat :=
  ((x <<< n) % two64) ||| (x >>> (64 - n))

/-- 64-bit bitwise complement. -/
def not64 (x : Nat) : Nat := Nat.xor x (two64 - 1)

/-- One step of the degree-8 LFSR (`x^8 + x^6 + x^5 + x^4 + 1`) that
generates the Keccak round constants: shift left and, when the top bit
falls out, feed it back into bit positions 0, 4, 5 and 6. -/
def lfsrStep (R : Nat) : Nat :=
  ((R <<< 1) ^^^ (((R >>> 7) &&& 1) * 0x71)) &&& 0xFF

/-- The LFSR state after `t` steps from the initial state `1`. -/
def lfsrIter : Nat → Nat
  | 0 => 1
  | t + 1 => lfsrStep (lfsrIter t)

/-- The round-constant bit `rc(t)` of the Keccak specification. -/
def rcBit (t : Nat) : Nat := lfsrIter t &&& 1

/-- The 24 Keccak-f[1600] round constants, generated as the
specification prescribes: bit `2^j - 1` of constant `i` is
`rc(j + 7*i)`. -/
def keccakRC : List Nat :=
  (List.range 24).map fun i =>
    (List.range 7).foldl (fun acc j => acc ||| (rcBit (j + 7 * i) <<< (2 ^ j - 1))) 0

/-- The rho-step rotation offsets, indexed by `x + 5*y`, generated as
the specification prescribes: walking the pi orbit from lane `(1, 0)`,
the `t`-th visited lane rotates by the triangular number
`(t+1)(t+2)/2 mod 64` (lane `(0, 0)` keeps offset zero). -/
def keccakRot : List Nat :=
  (List.range 25).map
    (((List.range 24).foldl
      (fun (p : (Nat × Nat) × (Nat → Nat)) t =>
        ((p.1.2, (2 * p.1.1 + 3 * p.1.2) % 5),
          fun idx =>
            if idx = p.1.1 + 5 * p.1.2 then (t + 1) * (t + 2) / 2 % 64 else p.2 idx))
      ((1, 0), fun _ => 0)).2)

/-- Lane `(x, y)` of a sponge state. -/
def lane (A : List Nat) (x y : Nat) : Nat := A.getD (x + 5 * y) 0

/-- Keccak theta step. -/
def keccakTheta (A : List Nat) : List Nat :=
  let C := (List.range 5).map fun x =>
    lane A x 0 ^^^ lane A x 1 ^^^ lane A x 2 ^^^ lane A x 3 ^^^ lane A x 4
  let D := (List.range 5).map fun x =>
    C.getD ((x + 4) % 5) 0 ^^^ rotl64 (C.getD ((x + 1) % 5) 0) 1
  (List.range 25).map fun i => A.getD i 0 ^^^ D.getD (i % 5) 0

/-- Keccak rho and pi steps combined: the output lane `(x', y')` is the
input lane `(x' + 3*y' mod 5, x')` rotated by its rho offset. -/
def keccakRhoPi (A : List Nat) : List Nat :=
  (List.range 25).map fun j =>
    let xo := j % 5
    let yo := j / 5
    let x := (xo + 3 * yo) % 5
    let y := xo
    rotl64 (lane A x y) (keccakRot.getD (x + 5 * y) 0)

/-- Keccak chi step. -/
def keccakChi (A : List Nat) : List Nat :=
  (List.range 25).map fun j =>
    let x := j % 5
    let y := j / 5
    lane A x y ^^^ (not64 (lane A ((x + 1) % 5) y) &&& lane A ((x + 2) % 5) y)

/-- Keccak iota step. -/
def keccakIota (rc : Nat) (A : List Nat) : List Nat :=
  (List.range 25).map fun j => if j = 0 then A.getD 0 0 ^^^ rc else A.getD j 0

/-- One Keccak-f round. -/
def keccakRound (A : List Nat) (rc : Nat) : List Nat :=
  keccakIota rc (keccakChi (keccakRhoPi (keccakTheta A)))

/-- The full Keccak-f[1600] permutation. -/
def keccakF (A : List Nat) : List Nat :=
  keccakRC.foldl keccakRound A

/-- Legacy multi-rate padding `0x01 0x00 … 0x80` to a multiple of the
136-byte rate. -/
def keccakPad (msg : List Nat) : List Nat :=
  let padLen := 136 - msg.length % 136
  if padLen = 1 then msg ++ [0x81]
  else msg ++ [0x01] ++ List.replicate (padLen - 2) 0 ++ [0x80]

/-- A little-endian 64-bit lane from up to 8 bytes. -/
def bytesToLane (bs : List Nat) : Nat :=
  bs.foldr (fun b acc => acc * 256 + b) 0

/-- The 17 rate lanes of one 136-byte block. -/
def blockLanes (block : List Nat) : List Nat :=
  (List.range 17).map fun i => bytesToLane ((block.drop (8 * i)).take 8)

/-- Absorb one 136-byte block and permute. -/
def absorbBlock (A : List Nat) (block : List Nat) : List Nat :=
  keccakF ((List.range 25).map fun j =>
    if j < 17 then A.getD j 0 ^^^ (blockLanes block).getD j 0 else A.getD j 0)

/-- Absorb `n` consecutive 136-byte blocks of `msg`. -/
def absorbBlocks : Nat → List Nat → List Nat → List Nat
  | 0, A, _ => A
  | n + 1, A, msg => absorbBlocks n (absorbBlock A (msg.take 136)) (msg.drop 136)

/-- Keccak-256 digest (32 bytes) of a byte sequence. -/
def keccak256 (msg : List Nat) : List Nat :=
  let padded := keccakPad msg
  let A := absorbBlocks (padded.length / 136) (List.replicate 25 0) padded
  (List.range 32).map fun i => (A.getD (i / 8) 0 >>> (8 * (i % 8))) % 256

/-! ## Address and hash rendering (geth `common` collaborator) -/

/-- The value of a hex character, as in Go's `encoding/hex` digit table. -/
def hexDigitVal (c : Char) : Option Nat :=
  if 48 ≤ c.toNat ∧ c.toNat ≤ 57 then some (c.toNat - 48)
  else if 97 ≤ c.toNat ∧ c.toNat ≤ 102 then some (c.toNat - 87)
  else if 65 ≤ c.toNat ∧ c.toNat ≤ 70 then some (c.toNat - 55)
  else none

/-- Go `hex.DecodeString` as used by `common.Hex2Bytes`: decode hex pairs
and, on the first malformed character, return the bytes decoded so far
(the error is dropped by `Hex2Bytes`). -/
def hexDecodeGo : List Char → List Nat
  | c1 :: c2 :: rest =>
    match hexDigitVal c1, hexDigitVal c2 with
    | some a, some b => (16 * a + b) :: hexDecodeGo rest
    | _, _ => []
  | _ => []

/-- A byte sequence read as a big-endian number. -/
def bytesToNat (bs : List Nat) : Nat :=
  bs.foldl (fun acc b => acc * 256 + b) 0

/-- Go `common.HexToAddress`: strip an optional `0x`/`0X` prefix, left-pad
to even length, best-effort hex decode, and keep the last 20 bytes
(`BytesToAddress`).  Never fails: malformed input degrades to fewer
decoded bytes, ultimately the zero address.  Addresses are modelled as
the `Nat` value of their 20 big-endian bytes. -/
def hexToAddress (s : String) : Nat :=
  let cs := s.toList
  let cs := if cs.take 2 = ['0', 'x'] ∨ cs.take 2 = ['0', 'X'] then cs.drop 2 else cs
  let cs := if cs.length % 2 = 1 then '0' :: cs else cs
  bytesToNat (hexDecodeGo cs) % 256 ^ 20

/-- The 20 big-endian bytes of an address value. -/
def addrBytes (a : Nat) : List Nat :=
  (List.range 20).map fun i => a >>> (8 * (19 - i)) % 256

/-- Geth `Address.String()`: EIP-55 checksummed hex.  A lowercase hex
letter is uppercased when the matching nibble of the Keccak-256 digest
of the 40 lowercase hex characters is at least 8. -/
def addrStr (a : Nat) : String :=
  let hexChars := (addrBytes a).foldr (fun b acc => byteToHex b ++ acc) []
  let h := keccak256 (hexChars.map Char.toNat)
  let cased := hexChars.enum.map fun p =>
    let i := p.1
    let c := p.2
    let nib := if i % 2 = 0 then h.getD (i / 2) 0 / 16 else h.getD (i / 2) 0 % 16
    if 97 ≤ c.toNat ∧ c.toNat ≤ 102 ∧ 8 ≤ nib then Char.ofNat (c.toNat - 32) else c
  "0x" ++ String.mk cased

/-- Geth `Hash.String()`: `0x` plus 64 lowercase hex characters.  A
32-byte hash is modelled as its list of bytes. -/
def hashStr (h : List Nat) : String := "0x" ++ bytesToHex h

/-! ## Data model -/

/-- The fields of a decoded `types.Transaction` that this core reads.
The hash is the 32-byte transaction hash; `to` is `none` for contract
creation; `gas` is the declared gas limit (`tx.Gas()`). -/
structure Tx where
  hash : List Nat
  toAddr : Option Nat
  gas : Nat
  deriving DecidableEq

/-- A `types.Receipt` as far as this core reads it. -/
structure Receipt where
  gasUsed : Nat
  logs : List Nat
  deriving DecidableEq

/-- A `core.ExecutionResult`: `errMsg` is the in-VM failure description
(`result.Err`), `isRevert` tells whether that failure is
`ErrExecutionReverted` (so that `result.Revert()` exposes the return
data), and `returnData` is `result.ReturnData`. -/
structure ExecResult where
  errMsg : Option String
  isRevert : Bool
  returnData : List Nat
  deriving DecidableEq

/-- Geth `ExecutionResult.Revert()`: the return data when the failure is
an execution revert, else empty. -/
def ExecResult.revertData (r : ExecResult) : List Nat :=
  if r.isRevert then r.returnData else []

/-- The mutable state view (`state.StateDB`) as this core touches it:
account balances (Go `uint256`, so `Nat`) plus the transaction-context
tag set by `SetTxContext`. -/
structure StateDB where
  balance : Nat → Nat
  txHashCtx : List Nat
  txIndexCtx : Nat

/-- `StateDB.SetTxContext`. -/
def StateDB.setTxContext (s : StateDB) (h : List Nat) (i : Nat) : StateDB :=
  { s with txHashCtx := h, txIndexCtx := i }

/-- An `evmcore.EvmHeader`.  `hash` is the header's own hash (meaningful
on resolved parents, zero on the synthetic header, which the Go code
never assigns); `time` is the `inter.Timestamp` (`uint64`); `baseFee`
is `nil`-able. -/
structure EvmHeader where
  hash : Nat := 0
  parentHash : Nat := 0
  number : Int
  gasLimit : Nat
  time : Nat
  coinbase : Nat
  baseFee : Option Int
  gasUsed : Nat := 0
  deriving DecidableEq

/-- What `evmcore.ApplyTransactionWithResult` hands back on success: the
receipt, the execution result, the mutated state view, the decremented
gas pool, and the updated `header.GasUsed` (written through the
`*uint64` argument). -/
structure ApplyOut where
  receipt : Receipt
  result : ExecResult
  newState : StateDB
  newPool : Nat
  newHeaderGasUsed : Nat

/-- The external collaborators of `CallBundle`, modelled as oracles:
`decodeTx` is `types.Transaction.UnmarshalBinary`; `stateAndHeader` is
`Backend.StateAndHeaderByNumberOrHash` (the reference is abstracted to
one value); `chainConfigIsLondon` and `calcBaseFee` are
`ChainConfig.IsLondon` and `eip1559.CalcBaseFee`; `sender` is
`types.Sender` under the signer made for the target block (its error is
discarded by the Go code); `effectiveGasTipPair` is
`types.Transaction.EffectiveGasTip`, returning both the value and the
optional error exactly as the Go method does; `getEVM` is `ethapi.GetEVM`
(message construction plus EVM setup, yielding abstract evm/msg tokens);
`applyTx` is `evmcore.ApplyTransactionWithResult`. -/
structure Backend where
  decodeTx : List Nat → Except String Tx
  stateAndHeader : Int → Except String (StateDB × EvmHeader)
  chainConfigIsLondon : Int → Bool
  calcBaseFee : EvmHeader → Int
  sender : Tx → Nat
  effectiveGasTipPair : Tx → Option Int → Int × Option String
  getEVM : StateDB → EvmHeader → Tx → Except String (Nat × Nat)
  applyTx : Nat → Nat → Nat → StateDB → EvmHeader → Tx → Except String ApplyOut

/-- `ethapi.CallBundleArgs`.  `blockNumber` is the `rpc.BlockNumber`
(an `int64`, so possibly negative); the state anchor is abstracted to
one value handed to the backend; `timeout` only shapes the ambient
cancellation signal and carries no further value-level meaning here. -/
structure CallBundleArgs where
  txs : List (List Nat)
  blockNumber : Int
  stateBlockNumber : Int
  coinbase : Option String := none
  timestamp : Option Nat := none
  timeout : Option Int := none
  gasLimit : Option Nat := none
  difficulty : Option Int := none
  baseFee : Option Int := none

/-- One entry of the `results` list.  The Go code renders the big
integers with `String()`; the lossless numeric values are kept here
(`gasUsed` is stored raw in the map, as in Go).  The `error`, `revert`
and `value` keys are optional exactly as they are conditionally set. -/
structure TxResult where
  txHash : String
  gasUsed : Nat
  fromAddress : String
  toAddress : String
  errorMsg : Option String
  revert : Option String
  value : Option String
  coinbaseDiff : Int
  gasFees : Int
  ethSentToCoinbase : Int
  gasPrice : Int
  deriving DecidableEq

/-- The bundle-level response map. -/
structure BundleResponse where
  results : List TxResult
  stateBlockNumber : Int
  totalGasUsed : Nat
  coinbaseDiff : Int
  gasFees : Int
  ethSentToCoinbase : Int
  bundleGasPrice : Int
  bundleHash : String
  deriving DecidableEq

/-- The observable fate of one RPC call: a value, a returned `error`, or
a Go runtime panic. -/
inductive Outcome (α : Type) where
  | ok (r : α)
  | err (e : String)
  | panic
  deriving DecidableEq

/-- Whether an outcome is a successful value. -/
def Outcome.isOk {α : Type} : Outcome α → Bool
  | .ok _ => true
  | _ => false

/-! ## The bundle call -/

/-- The upfront decode loop of `CallBundle`: unmarshal every encoded
transaction, stopping at the first failure with its error. -/
def decodeAll (B : Backend) : List (List Nat) → Except String (List Tx)
  | [] => .ok []
  | raw :: rest =>
    match B.decodeTx raw with
    | .error e => .error e
    | .ok tx =>
      match decodeAll B rest with
      | .error e => .error e
      | .ok txs => .ok (tx :: txs)

/-- The synthetic next-block header built by `CallBundle` from the
resolved parent and the request overrides (source lines 95–127).  The
`+ 1` on the parent timestamp is `uint64` arithmetic. -/
def synthesizeHeader (B : Backend) (args : CallBundleArgs) (parent : EvmHeader) : EvmHeader :=
  { hash := 0
    parentHash := parent.hash
    number := args.blockNumber
    gasLimit := match args.gasLimit with
      | some g => g
      | none => parent.gasLimit
    time := match args.timestamp with
      | some t => t
      | none => (parent.time + 1) % two64
    coinbase := match args.coinbase with
      | some s => hexToAddress s
      | none => parent.coinbase
    baseFee := match args.baseFee with
      | some f => some f
      | none =>
        if B.chainConfigIsLondon args.blockNumber then some (B.calcBaseFee parent) else none
    gasUsed := 0 }

/-- The error wrapping `fmt.Errorf("err: %w; txhash %s", err, tx.Hash())`
used after `ApplyTransactionWithResult` and `EffectiveGasTip` failures. -/
def annotateErr (e : String) (tx : Tx) : String :=
  "err: " ++ e ++ "; txhash " ++ hashStr tx.hash

/-- `BundleAPI.processTransactionResult`: build one entry of `results`.
`header` is the synthetic header (only its coinbase and base fee are
read); `cbBeforeTx` is the coinbase balance snapshotted before the
transaction; `state` is the state view after applying it.  The Go code
computes `gasPrice` with `big.Int.Div(coinbaseDiff, int64(gasUsed))`,
which panics when `gasUsed` is zero — modelled as `none`. -/
def processTransactionResult (B : Backend) (tx : Tx) (receipt : Receipt)
    (result : ExecResult) (header : EvmHeader) (cbBeforeTx : Nat) (state : StateDB) :
    Option TxResult :=
  let coinbaseDiffTx : Int := (state.balance header.coinbase : Int) - (cbBeforeTx : Int)
  match goBigDiv coinbaseDiffTx (toInt64 receipt.gasUsed) with
  | none => none
  | some price =>
    let tip := (B.effectiveGasTipPair tx header.baseFee).1
    let gasFeesTx := toInt64 receipt.gasUsed * tip
    some
      { txHash := hashStr tx.hash
        gasUsed := receipt.gasUsed
        fromAddress := addrStr (B.sender tx)
        toAddress := match tx.toAddr with
          | none => "0x"
          | some a => addrStr a
        errorMsg := result.errMsg
        revert := match result.errMsg with
          | some _ =>
            if result.revertData ≠ [] then some (bytesAsString result.revertData) else none
          | none => none
        value := match result.errMsg with
          | some _ => none
          | none => some ("0x" ++ bytesToHex result.returnData)
        coinbaseDiff := coinbaseDiffTx
        gasFees := gasFeesTx
        ethSentToCoinbase := coinbaseDiffTx - gasFeesTx
        gasPrice := price }

/-- The accumulator threaded through the execution loop: the state view,
the synthetic header (whose `gasUsed` the engine updates in place), the
gas pool, the running `totalGasUsed` (`uint64`), the running `gasFees`
(`big.Int`), the bytes fed to the bundle digest so far, and the result
entries collected so far. -/
structure LoopSt where
  state : StateDB
  header : EvmHeader
  pool : Nat
  totalGasUsed : Nat
  gasFees : Int
  hashAcc : List Nat
  results : List TxResult

/-- The per-transaction loop of `CallBundle` (source lines 139–170).
`cancel i` is `ctx.Err()` observed at the check before transaction `i`;
`coinbase` is the synthetic header's coinbase. -/
def execLoop (B : Backend) (cancel : Nat → Option String) (coinbase : Nat) :
    List Tx → Nat → LoopSt → Outcome LoopSt
  | [], _, st => .ok st
  | tx :: rest, i, st =>
    match cancel i with
    | some e => .err e
    | none =>
      let cbBeforeTx := st.state.balance coinbase
      let state1 := st.state.setTxContext tx.hash i
      match B.getEVM state1 st.header tx with
      | .error e => .err e
      | .ok (evm, msg) =>
        match B.applyTx evm msg st.pool state1 st.header tx with
        | .error e => .err (annotateErr e tx)
        | .ok out =>
          let header1 := { st.header with gasUsed := out.newHeaderGasUsed }
          match processTransactionResult B tx out.receipt out.result header1 cbBeforeTx
              out.newState with
          | none => .panic
          | some entry =>
            let total1 := (st.totalGasUsed + out.receipt.gasUsed) % two64
            match B.effectiveGasTipPair tx st.header.baseFee with
            | (_, some e) => .err (annotateErr e tx)
            | (tip, none) =>
              execLoop B cancel coinbase rest (i + 1)
                { state := out.newState
                  header := header1
                  pool := out.newPool
                  totalGasUsed := total1
                  gasFees := st.gasFees + toInt64 out.receipt.gasUsed * tip
                  hashAcc := st.hashAcc ++ tx.hash
                  results := st.results ++ [entry] }

/-- `BundleAPI.prepareFinalResult`: the bundle-level response.  The
`bundleGasPrice` division is the same unguarded `big.Int.Div`. -/
def prepareFinalResult (results : List TxResult) (state : StateDB)
    (coinbaseBalanceBefore : Nat) (coinbase : Nat) (gasFees : Int) (totalGasUsed : Nat)
    (parent : EvmHeader) (hashAcc : List Nat) : Option BundleResponse :=
  let coinbaseDiff : Int := (state.balance coinbase : Int) - (coinbaseBalanceBefore : Int)
  match goBigDiv coinbaseDiff (toInt64 totalGasUsed) with
  | none => none
  | some bundleGasPrice =>
    some
      { results := results
        stateBlockNumber := parent.number
        totalGasUsed := totalGasUsed
        coinbaseDiff := coinbaseDiff
        gasFees := gasFees
        ethSentToCoinbase := coinbaseDiff - gasFees
        bundleGasPrice := bundleGasPrice
        bundleHash := "0x" ++ bytesToHex (keccak256 hashAcc) }

/-- `BundleAPI.CallBundle`: validation, upfront decoding, state/parent
resolution, header synthesis, the execution loop over a
`math.MaxUint64` gas pool, and final assembly. -/
def CallBundle (B : Backend) (cancel : Nat → Option String) (args : CallBundleArgs) :
    Outcome BundleResponse :=
  if args.txs.length = 0 then .err "bundle missing txs"
  else if args.blockNumber = 0 then .err "bundle missing blockNumber"
  else
    match decodeAll B args.txs with
    | .error e => .err e
    | .ok txs =>
      match B.stateAndHeader args.stateBlockNumber with
      | .error e => .err e
      | .ok (state0, parent) =>
        let header := synthesizeHeader B args parent
        let coinbase := header.coinbase
        let coinbaseBalanceBefore := state0.balance coinbase
        let st0 : LoopSt :=
          { state := state0, header := header, pool := two64 - 1, totalGasUsed := 0,
            gasFees := 0, hashAcc := [], results := [] }
        match execLoop B cancel coinbase txs 0 st0 with
        | .err e => .err e
        | .panic => .panic
        | .ok stF =>
          match prepareFinalResult stF.results stF.state coinbaseBalanceBefore coinbase
              stF.gasFees stF.totalGasUsed parent stF.hashAcc with
          | none => .panic
          | some r => .ok r

/-! ## The single-transaction log previewer -/

/-- The collaborators of `filters.simulateTx`: the current chain head
(`Backend.CurrentBlock().EvmHeader`), transaction lookup
(`Backend.GetTransaction`), and the same chain-config, state, message
and engine oracles as the bundle path. -/
structure FilterBackend where
  currentBlock : EvmHeader
  chainConfigIsLondon : Int → Bool
  calcBaseFee : EvmHeader → Int
  getTransaction : List Nat → Except String Tx
  stateAndHeader : Int → Except String (StateDB × EvmHeader)
  getEVM : StateDB → EvmHeader → Tx → Except String (Nat × Nat)
  applyTx : Nat → Nat → Nat → StateDB → EvmHeader → Tx → Except String ApplyOut

/-- The synthetic header `filters.simulateTx` builds on top of the
current chain head: next number, head's values for everything else,
timestamp bumped by one (`uint64`). -/
def simulateHeader (B : FilterBackend) : EvmHeader :=
  let parent := B.currentBlock
  { hash := 0
    parentHash := parent.hash
    number := parent.number + 1
    gasLimit := parent.gasLimit
    time := (parent.time + 1) % two64
    coinbase := parent.coinbase
    baseFee :=
      if B.chainConfigIsLondon (parent.number + 1) then some (B.calcBaseFee parent) else none
    gasUsed := 0 }

/-- `PublicFilterAPI.simulateTx`: a one-transaction preview anchored at
the current head, with the gas pool set to the transaction's own gas
limit, returning only the receipt's logs. -/
def simulateTx (B : FilterBackend) (txHash : List Nat) : Except String (List Nat) :=
  let parent := B.currentBlock
  match B.getTransaction txHash with
  | .error e => .error e
  | .ok tx =>
    let header := simulateHeader B
    let gasPool := tx.gas
    match B.stateAndHeader parent.number with
    | .error e => .error e
    | .ok (state, _) =>
      let state1 := state.setTxContext tx.hash 0
      match B.getEVM state1 header tx with
      | .error e => .error e
      | .ok (evm, msg) =>
        match B.applyTx evm msg gasPool state1 header tx with
        | .error e => .error e
        | .ok out => .ok out.receipt.logs

/-! ## The gas-pool discipline of the execution engine

`core.GasPool` enforces that the pool never goes negative: a successful
`ApplyTransactionWithResult` consumes exactly the receipt's gas from the
pool and fails if the pool would be exceeded.  This is the contract of
the external engine that the bundle loop relies on. -/

/-- An engine oracle respects the gas pool: on success the reported gas
fits in the pool handed to it and the returned pool is the remainder. -/
def GasPoolDiscipline (B : Backend) : Prop :=
  ∀ evm msg pool st hdr tx out, B.applyTx evm msg pool st hdr tx = .ok out →
    out.receipt.gasUsed ≤ pool ∧ out.newPool = pool - out.receipt.gasUsed

/-- Concatenation of the byte blocks fed to the bundle digest. -/
def concatBytes (l : List (List Nat)) : List Nat :=
  l.foldr (· ++ ·) []

/-- The success payload of a bundle call (its zero value when the call
did not succeed). -/
def extractOk (o : Outcome BundleResponse) : BundleResponse :=
  match o with
  | .ok r => r
  | _ =>
    { results := [], stateBlockNumber := 0, totalGasUsed := 0, coinbaseDiff := 0,
      gasFees := 0, ethSentToCoinbase := 0, bundleGasPrice := 0, bundleHash := "" }

/-! ## Concrete fixtures used by witnesses and counterexamples -/

/-- A 32-byte transaction hash ending in the given byte. -/
def mkHash (b : Nat) : List Nat := List.replicate 31 0 ++ [b]

/-- A plain value-transfer transaction fixture. -/
def tx1 : Tx := { hash := mkHash 1, toAddr := some 7, gas := 100000 }

/-- A contract-creation transaction fixture. -/
def tx2 : Tx := { hash := mkHash 2, toAddr := none, gas := 50000 }

/-- A state view whose coinbase account (address `1234`) holds `n` wei. -/
def mkState (n : Nat) : StateDB :=
  { balance := fun a => if a = 1234 then n else 0, txHashCtx := [], txIndexCtx := 0 }

/-- A resolved parent header fixture (coinbase `1234`, time `100`). -/
def parentH : EvmHeader :=
  { hash := 99, parentHash := 98, number := 6, gasLimit := 30000000, time := 100,
    coinbase := 1234, baseFee := some 10, gasUsed := 0 }

/-- A well-behaved backend fixture: raw `[1]`/`[2]` decode to
`tx1`/`tx2`, everything resolves, and every application consumes 21000
gas, succeeds with return data `0xab`, and credits 42042 wei to the
coinbase account. -/
def sampleBackend : Backend :=
  { decodeTx := fun raw =>
      if raw = [1] then .ok tx1
      else if raw = [2] then .ok tx2
      else .error "rlp: malformed transaction"
    stateAndHeader := fun _ => .ok (mkState 5000, parentH)
    chainConfigIsLondon := fun _ => false
    calcBaseFee := fun _ => 10
    sender := fun _ => 55
    effectiveGasTipPair := fun _ _ => (2, none)
    getEVM := fun _ _ _ => .ok (0, 0)
    applyTx := fun _ _ pool st _ _ =>
      if 21000 ≤ pool then
        .ok
          { receipt := { gasUsed := 21000, logs := [] }
            result := { errMsg := none, isRevert := false, returnData := [0xab] }
            newState :=
              { st with balance := fun a => if a = 1234 then st.balance a + 42042 else st.balance a }
            newPool := pool - 21000
            newHeaderGasUsed := 21000 }
      else .error "gas limit reached" }

/-- The ambient signal when nothing cancels. -/
def noCancel : Nat → Option String := fun _ => none

/-- The ambient signal when the deadline has already fired. -/
def cancelNow : Nat → Option String := fun _ => some "context deadline exceeded"

/-- A one-transaction request fixture. -/
def argsOne : CallBundleArgs := { txs := [[1]], blockNumber := 7, stateBlockNumber := 3 }

/-- A two-transaction request fixture. -/
def argsTwo : CallBundleArgs := { txs := [[1], [2]], blockNumber := 7, stateBlockNumber := 3 }

/-- The response of the sample two-transaction bundle. -/
def runTwo : BundleResponse := extractOk (CallBundle sampleBackend noCancel argsTwo)

/-- An empty-bundle request fixture. -/
def argsEmptyTxs : CallBundleArgs := { txs := [], blockNumber := 7, stateBlockNumber := 3 }

/-- A zero-block-number request fixture. -/
def argsZeroBN : CallBundleArgs := { txs := [[1]], blockNumber := 0, stateBlockNumber := 3 }

/-- A request with a negative target block number and a malformed
coinbase override. -/
def argsInvalid : CallBundleArgs :=
  { txs := [[1]], blockNumber := -1, stateBlockNumber := 3,
    coinbase := some "definitely-not-hex" }

/-- A request whose timestamp override is earlier than the parent's
time (`parentH.time = 100`). -/
def argsEarlier : CallBundleArgs :=
  { txs := [[1]], blockNumber := 7, stateBlockNumber := 3, timestamp := some 50 }

/-- A request containing a malformed transaction encoding. -/
def argsBadTx : CallBundleArgs := { txs := [[9]], blockNumber := 7, stateBlockNumber := 3 }

/-- A bundle containing the same transaction twice. -/
def argsDup : CallBundleArgs := { txs := [[1], [1]], blockNumber := 7, stateBlockNumber := 3 }

/-- The duplicate bundle with its transactions reordered. -/
def argsDupRev : CallBundleArgs := { argsDup with txs := argsDup.txs.reverse }

/-- A backend whose engine reports a transaction that used zero gas. -/
def zeroGasBackend : Backend :=
  { sampleBackend with
    applyTx := fun _ _ pool st _ _ =>
      .ok
        { receipt := { gasUsed := 0, logs := [] }
          result := { errMsg := none, isRevert := false, returnData := [] }
          newState := st, newPool := pool, newHeaderGasUsed := 0 } }

/-- A backend whose message construction / EVM setup fails. -/
def evmFailBackend : Backend :=
  { sampleBackend with getEVM := fun _ _ _ => .error "boom" }

/-- A backend whose engine invocation fails. -/
def applyFailBackend : Backend :=
  { sampleBackend with applyTx := fun _ _ _ _ _ _ => .error "nonce too low" }

/-- A backend whose post-decode collaborators all blow up if touched. -/
def unreachableBackend : Backend :=
  { sampleBackend with
    stateAndHeader := fun _ => .error "state touched"
    getEVM := fun _ _ _ => .error "evm touched"
    applyTx := fun _ _ _ _ _ _ => .error "apply touched" }

/-- The initial loop accumulator for the sample one-transaction call. -/
def st0sample : LoopSt :=
  { state := mkState 5000, header := synthesizeHeader sampleBackend argsOne parentH,
    pool := two64 - 1, totalGasUsed := 0, gasFees := 0, hashAcc := [], results := [] }

/-- An in-VM revert outcome with two bytes of revert data. -/
def revertResult : ExecResult :=
  { errMsg := some "execution reverted", isRevert := true, returnData := [0x41, 0x42] }

/-- The zero value of a result entry. -/
def emptyTxResult : TxResult :=
  { txHash := "", gasUsed := 0, fromAddress := "", toAddress := "", errorMsg := none,
    revert := none, value := none, coinbaseDiff := 0, gasFees := 0,
    ethSentToCoinbase := 0, gasPrice := 0 }

/-- The payload of an optional result entry. -/
def getEntry (o : Option TxResult) : TxResult := o.getD emptyTxResult

/-- The entry recorded for the sample reverting transaction. -/
def revertEntry : TxResult :=
  getEntry (processTransactionResult sampleBackend tx1 { gasUsed := 21000, logs := [] }
    revertResult parentH 0 (mkState 0))

/-- A filter backend fixture: only `mkHash 1` resolves (to `tx1`), and
applying it yields a receipt with no logs. -/
def sampleFilterBackend : FilterBackend :=
  { currentBlock := parentH
    chainConfigIsLondon := fun _ => false
    calcBaseFee := fun _ => 10
    getTransaction := fun h =>
      if h = mkHash 1 then .ok tx1 else .error "transaction not found"
    stateAndHeader := fun _ => .ok (mkState 5000, parentH)
    getEVM := fun _ _ _ => .ok (0, 0)
    applyTx := fun _ _ _ st _ _ =>
      .ok
        { receipt := { gasUsed := 21000, logs := [] }
          result := { errMsg := none, isRevert := false, returnData := [] }
          newState := st, newPool := 0, newHeaderGasUsed := 21000 } }

/-- The sample backend respects the gas-pool contract. -/
theorem sampleBackend_discipline : GasPoolDiscipline sampleBackend := by
  intro evm msg pool st hdr tx out h
  by_cases hp : 21000 ≤ pool
  · simp only [sampleBackend, hp, if_pos] at h
    cases h
    exact ⟨hp, rfl⟩
  · simp [sampleBackend, hp] at h

/-- `decodeAll` produces one transaction per encoding. -/
theorem decodeAll_length (B : Backend) :
    ∀ raws txs, decodeAll B raws = .ok txs → txs.length = raws.length := by
  intro raws
  induction raws with
  | nil => intro txs h; simp only [decodeAll] at h; cases h; rfl
  | cons raw rest ih =>
    intro txs h
    simp only [decodeAll] at h
    cases hd : B.decodeTx raw with
    | error e => rw [hd] at h; cases h
    | ok tx =>
      rw [hd] at h
      cases hr : decodeAll B rest with
      | error e => rw [hr] at h; cases h
      | ok txs2 => rw [hr] at h; cases h; simp [ih txs2 hr]

/-- `decodeAll` reads only the decoding oracle. -/
theorem decodeAll_ext (B B2 : Backend) (hde : B2.decodeTx = B.decodeTx) :
    ∀ raws, decodeAll B2 raws = decodeAll B raws := by
  intro raws
  induction raws with
  | nil => rfl
  | cons raw rest ih => simp only [decodeAll, hde, ih]

/-- `toInt64` is the identity below `2^63`; in particular it is nonzero
on nonzero gas below `2^63`. -/
theorem toInt64_small (n : Nat) (h : n < 2 ^ 63) : toInt64 n = (n : Nat) := by
  have h64 : n < two64 := lt_of_lt_of_le h (by norm_num [two64])
  have hm : n % two64 = n := Nat.mod_eq_of_lt h64
  simp only [toInt64, hm]
  rw [if_pos h]

/-- `processTransactionResult` panics exactly on a zero `int64` gas
value. -/
theorem processTransactionResult_none_iff (B : Backend) (tx : Tx) (receipt : Receipt)
    (result : ExecResult) (header : EvmHeader) (cbBeforeTx : Nat) (state : StateDB) :
    processTransactionResult B tx receipt result header cbBeforeTx state = none ↔
      toInt64 receipt.gasUsed = 0 := by
  by_cases h : toInt64 receipt.gasUsed = 0 <;>
    simp [processTransactionResult, goBigDiv, h]

/-- The explicit entry built by `processTransactionResult` when the gas
divisor is nonzero. -/
theorem processTransactionResult_some (B : Backend) (tx : Tx) (receipt : Receipt)
    (result : ExecResult) (header : EvmHeader) (cbBeforeTx : Nat) (state : StateDB)
    (h : toInt64 receipt.gasUsed ≠ 0) :
    processTransactionResult B tx receipt result header cbBeforeTx state =
      some
        { txHash := hashStr tx.hash
          gasUsed := receipt.gasUsed
          fromAddress := addrStr (B.sender tx)
          toAddress := match tx.toAddr with
            | none => "0x"
            | some a => addrStr a
          errorMsg := result.errMsg
          revert := match result.errMsg with
            | some _ =>
              if result.revertData ≠ [] then some (bytesAsString result.revertData) else none
            | none => none
          value := match result.errMsg with
            | some _ => none
            | none => some ("0x" ++ bytesToHex result.returnData)
          coinbaseDiff := (state.balance header.coinbase : Int) - (cbBeforeTx : Int)
          gasFees := toInt64 receipt.gasUsed * (B.effectiveGasTipPair tx header.baseFee).1
          ethSentToCoinbase :=
            ((state.balance header.coinbase : Int) - (cbBeforeTx : Int)) -
              toInt64 receipt.gasUsed * (B.effectiveGasTipPair tx header.baseFee).1
          gasPrice :=
            Int.ediv ((state.balance header.coinbase : Int) - (cbBeforeTx : Int))
              (toInt64 receipt.gasUsed) } := by
  simp [processTransactionResult, goBigDiv, h]

/-- `concatBytes` on a cons. -/
theorem concatBytes_cons (x : List Nat) (l : List (List Nat)) :
    concatBytes (x :: l) = x ++ concatBytes l := rfl

/-- The master invariant of the execution loop: a successful run appends
one entry per transaction (in order, keyed by the transaction hashes),
accumulates `totalGasUsed` as the `uint64` sum of the entries' gas,
accumulates `gasFees` as the exact sum of the entries' fees, feeds
exactly the in-order concatenation of the transaction hashes to the
digest, and — when the engine respects the gas pool — drains the pool by
exactly the total gas. -/
theorem execLoop_ok (B : Backend) (cancel : Nat → Option String) (cb : Nat) :
    ∀ (l : List Tx) (i : Nat) (st stF : LoopSt), st.totalGasUsed < two64 →
      execLoop B cancel cb l i st = .ok stF →
      ∃ Δ : List TxResult,
        stF.results = st.results ++ Δ ∧
        Δ.map TxResult.txHash = l.map (fun t => hashStr t.hash) ∧
        stF.totalGasUsed = (st.totalGasUsed + (Δ.map TxResult.gasUsed).sum) % two64 ∧
        stF.gasFees = st.gasFees + (Δ.map TxResult.gasFees).sum ∧
        stF.hashAcc = st.hashAcc ++ concatBytes (l.map Tx.hash) ∧
        (GasPoolDiscipline B → st.pool = stF.pool + (Δ.map TxResult.gasUsed).sum) := by
  intro l
  induction l with
  | nil =>
    intro i st stF hst h
    simp only [execLoop] at h
    cases h
    exact ⟨[], by simp [concatBytes, Nat.mod_eq_of_lt hst]⟩
  | cons tx rest ih =>
    intro i st stF hst h
    simp only [execLoop] at h
    cases hc : cancel i with
    | some e => simp [hc] at h
    | none =>
      simp only [hc] at h
      cases hevm : B.getEVM (st.state.setTxContext tx.hash i) st.header tx with
      | error e => simp [hevm] at h
      | ok p =>
        obtain ⟨evm, msg⟩ := p
        simp only [hevm] at h
        cases happ : B.applyTx evm msg st.pool (st.state.setTxContext tx.hash i) st.header tx with
        | error e => simp [happ] at h
        | ok out =>
          simp only [happ] at h
          cases hpr : processTransactionResult B tx out.receipt out.result
              { st.header with gasUsed := out.newHeaderGasUsed }
              (st.state.balance cb) out.newState with
          | none => simp [hpr] at h
          | some entry =>
            simp only [hpr] at h
            cases htip : B.effectiveGasTipPair tx st.header.baseFee with
            | mk tip errOpt =>
              simp only [htip] at h
              cases errOpt with
              | some e => simp at h
              | none =>
                have hne : toInt64 out.receipt.gasUsed ≠ 0 := by
                  intro h0
                  rw [(processTransactionResult_none_iff B tx out.receipt out.result
                    { st.header with gasUsed := out.newHeaderGasUsed }
                    (st.state.balance cb) out.newState).mpr h0] at hpr
                  cases hpr
                rw [processTransactionResult_some B tx out.receipt out.result
                  { st.header with gasUsed := out.newHeaderGasUsed }
                  (st.state.balance cb) out.newState hne] at hpr
                injection hpr with hpr
                obtain ⟨Δ, h1, h2, h3, h4, h5, h6⟩ :=
                  ih (i + 1) _ stF (Nat.mod_lt _ (by norm_num [two64])) h
                refine ⟨entry :: Δ, ?_, ?_, ?_, ?_, ?_, ?_⟩
                · simp only at h1
                  simp [h1, ← hpr]
                · simp only [List.map_cons, h2, ← hpr]
                · simp only at h3
                  simp only [List.map_cons, List.sum_cons, ← hpr]
                  simp only [two64] at h3 hst ⊢
                  omega
                · simp only at h4
                  simp only [List.map_cons, List.sum_cons, ← hpr]
                  rw [h4]
                  have hbf :
                      ({ st.header with gasUsed := out.newHeaderGasUsed } : EvmHeader).baseFee =
                        st.header.baseFee := rfl
                  simp only [hbf, htip]
                  ring
                · simp only at h5
                  simp [h5, concatBytes_cons, List.map_cons]
                · intro hd
                  obtain ⟨hle, hnew⟩ := hd evm msg st.pool _ st.header tx out happ
                  have h6d := h6 hd
                  simp only at h6d
                  simp only [List.map_cons, List.sum_cons, ← hpr]
                  omega

/-- The explicit response built by `prepareFinalResult` when it does not
panic. -/
theorem prepareFinalResult_some (results : List TxResult) (state : StateDB)
    (cbBefore : Nat) (cb : Nat) (fees : Int) (total : Nat) (parent : EvmHeader)
    (acc : List Nat) (r : BundleResponse)
    (h : prepareFinalResult results state cbBefore cb fees total parent acc = some r) :
    toInt64 total ≠ 0 ∧
      r = { results := results
            stateBlockNumber := parent.number
            totalGasUsed := total
            coinbaseDiff := (state.balance cb : Int) - (cbBefore : Int)
            gasFees := fees
            ethSentToCoinbase := ((state.balance cb : Int) - (cbBefore : Int)) - fees
            bundleGasPrice :=
              Int.ediv ((state.balance cb : Int) - (cbBefore : Int)) (toInt64 total)
            bundleHash := "0x" ++ bytesToHex (keccak256 acc) } := by
  by_cases h0 : toInt64 total = 0
  · simp [prepareFinalResult, goBigDiv, h0] at h
  · simp only [prepareFinalResult, goBigDiv, h0, if_neg, if_false] at h
    simp only [Option.some.injEq] at h
    exact ⟨h0, h.symm⟩

/-- A successful `CallBundle` run decomposes into its stages: decoding,
resolution, the loop from the initial accumulator, and final assembly. -/
theorem CallBundle_ok_decomp (B : Backend) (cancel : Nat → Option String)
    (args : CallBundleArgs) (r : BundleResponse)
    (h : CallBundle B cancel args = .ok r) :
    ∃ txs state0 parent stF,
      decodeAll B args.txs = .ok txs ∧
      B.stateAndHeader args.stateBlockNumber = .ok (state0, parent) ∧
      execLoop B cancel (synthesizeHeader B args parent).coinbase txs 0
        { state := state0, header := synthesizeHeader B args parent, pool := two64 - 1,
          totalGasUsed := 0, gasFees := 0, hashAcc := [], results := [] } = .ok stF ∧
      prepareFinalResult stF.results stF.state
        (state0.balance (synthesizeHeader B args parent).coinbase)
        (synthesizeHeader B args parent).coinbase stF.gasFees stF.totalGasUsed parent
        stF.hashAcc = some r := by
  simp only [CallBundle] at h
  split at h
  · exact absurd h (by simp)
  split at h
  · exact absurd h (by simp)
  cases hdec : decodeAll B args.txs with
  | error e => simp [hdec] at h
  | ok txs =>
    simp only [hdec] at h
    cases hsh : B.stateAndHeader args.stateBlockNumber with
    | error e => simp [hsh] at h
    | ok p =>
      obtain ⟨state0, parent⟩ := p
      simp only [hsh] at h
      cases hloop : execLoop B cancel (synthesizeHeader B args parent).coinbase txs 0
          { state := state0, header := synthesizeHeader B args parent, pool := two64 - 1,
            totalGasUsed := 0, gasFees := 0, hashAcc := [], results := [] } with
      | err e => simp [hloop] at h
      | panic => simp [hloop] at h
      | ok stF =>
        simp only [hloop] at h
        cases hfin : prepareFinalResult stF.results stF.state
            (state0.balance (synthesizeHeader B args parent).coinbase)
            (synthesizeHeader B args parent).coinbase stF.gasFees stF.totalGasUsed parent
            stF.hashAcc with
        | none => simp [hfin] at h
        | some r2 =>
          simp only [hfin, Outcome.ok.injEq] at h
          exact ⟨txs, state0, parent, stF, rfl, rfl, hloop, by rw [hfin, h]⟩

/-! ## Claim C1 -/

/-- Claim C1: the claim says the effective-price computations are
guarded against division by zero.  They are not: `big.Int.Div` with a
zero divisor panics, and both the per-transaction `gasPrice` (a bundle
whose engine reports `gasUsed = 0` makes the whole call panic instead
of omitting the field) and the bundle-wide `bundleGasPrice` (with zero
cumulative gas) hit an unguarded division. -/
theorem zero_gas_division_panics :
    CallBundle zeroGasBackend noCancel argsOne = .panic ∧
    prepareFinalResult [] (mkState 0) 0 1234 0 0 parentH [] = none := by
  exact ⟨rfl, rfl⟩

/-! ## Claim C2 -/

/-- Claim C2 (corrected): the only request validations are the empty
transaction list and a target block number equal to zero; both are
rejected immediately, before any decoding, state access or execution,
with the backend and cancellation signal arbitrary. -/
theorem request_validation (B : Backend) (cancel : Nat → Option String)
    (args : CallBundleArgs) :
    (args.txs = [] → CallBundle B cancel args = .err "bundle missing txs") ∧
    (args.txs ≠ [] → args.blockNumber = 0 →
      CallBundle B cancel args = .err "bundle missing blockNumber") := by
  constructor
  · intro h
    simp [CallBundle, h]
  · intro h1 h2
    have hlen : args.txs.length ≠ 0 := by
      intro h0
      exact h1 (List.length_eq_zero.mp h0)
    simp only [CallBundle]
    rw [if_neg hlen, if_pos h2]

/-- Claim C2 counterexample: a request with a negative target block
number and a malformed coinbase override is not rejected — the call runs
to a successful result (the bad coinbase string silently degrades by
best-effort hex parsing instead of failing with a descriptive error). -/
theorem request_validation_counterexample :
    argsInvalid.blockNumber = -1 ∧ argsInvalid.coinbase = some "definitely-not-hex" ∧
    (CallBundle sampleBackend noCancel argsInvalid).isOk = true := by
  exact ⟨rfl, rfl, rfl⟩

/-- Claim C2 witness: the two validations observed on concrete
requests. -/
theorem request_validation_witness :
    CallBundle sampleBackend noCancel argsEmptyTxs = .err "bundle missing txs" ∧
    CallBundle sampleBackend noCancel argsZeroBN = .err "bundle missing blockNumber" := by
  exact ⟨(request_validation sampleBackend noCancel argsEmptyTxs).1 rfl,
    (request_validation sampleBackend noCancel argsZeroBN).2 (by decide) rfl⟩

/-! ## Claim C5 -/

/-- Claim C5 (amended): the synthetic header carries the parent's own
hash as parent hash, the caller's target number, the override values for
timestamp / coinbase / gas limit / base fee when supplied and the
parent-derived values otherwise (timestamp `parent + 1` in `uint64`
arithmetic, which is not earlier than the parent when the increment does
not overflow; base fee from the fee-market formula only when the
fee-market rule is active at the target number).  A supplied timestamp
override is used as-is, so the monotonicity of the no-override case does
not extend to it. -/
theorem header_synthesis (B : Backend) (args : CallBundleArgs) (parent : EvmHeader) :
    (synthesizeHeader B args parent).parentHash = parent.hash ∧
    (synthesizeHeader B args parent).number = args.blockNumber ∧
    (∀ t, args.timestamp = some t → (synthesizeHeader B args parent).time = t) ∧
    (args.timestamp = none →
      (synthesizeHeader B args parent).time = (parent.time + 1) % two64 ∧
      (parent.time + 1 < two64 → parent.time ≤ (synthesizeHeader B args parent).time)) ∧
    (∀ s, args.coinbase = some s →
      (synthesizeHeader B args parent).coinbase = hexToAddress s) ∧
    (args.coinbase = none → (synthesizeHeader B args parent).coinbase = parent.coinbase) ∧
    (∀ g, args.gasLimit = some g → (synthesizeHeader B args parent).gasLimit = g) ∧
    (args.gasLimit = none → (synthesizeHeader B args parent).gasLimit = parent.gasLimit) ∧
    (∀ f, args.baseFee = some f → (synthesizeHeader B args parent).baseFee = some f) ∧
    (args.baseFee = none → (synthesizeHeader B args parent).baseFee =
      (if B.chainConfigIsLondon args.blockNumber then some (B.calcBaseFee parent)
       else none)) := by
  refine ⟨rfl, rfl, ?_, ?_, ?_, ?_, ?_, ?_, ?_, ?_⟩
  · intro t h; simp [synthesizeHeader, h]
  · intro h
    constructor
    · simp [synthesizeHeader, h]
    · intro hlt
      simp only [synthesizeHeader, h]
      rw [Nat.mod_eq_of_lt hlt]
      omega
  · intro s h; simp [synthesizeHeader, h]
  · intro h; simp [synthesizeHeader, h]
  · intro g h; simp [synthesizeHeader, h]
  · intro h; simp [synthesizeHeader, h]
  · intro f h; simp [synthesizeHeader, h]
  · intro h; simp [synthesizeHeader, h]

/-- Claim C5 counterexample: a timestamp override earlier than the
parent's time is used as-is, so the synthetic header *is* earlier than
its parent, refuting the "in all cases never earlier" part. -/
theorem header_timestamp_override_counterexample :
    argsEarlier.timestamp = some 50 ∧ parentH.time = 100 ∧
    (synthesizeHeader sampleBackend argsEarlier parentH).time < parentH.time := by
  exact ⟨rfl, rfl, by decide⟩

/-- Claim C5 witness: the no-override timestamp rule observed on the
concrete fixture. -/
theorem header_synthesis_witness :
    argsOne.timestamp = none ∧
    (synthesizeHeader sampleBackend argsOne parentH).time = (parentH.time + 1) % two64 ∧
    parentH.time ≤ (synthesizeHeader sampleBackend argsOne parentH).time := by
  have h := (header_synthesis sampleBackend argsOne parentH).2.2.2.1 rfl
  exact ⟨rfl, h.1, h.2 (by decide)⟩

/-! ## Claim C8 -/

/-- Claim C8: the cancellation signal is checked before each transaction
application; once it has fired the whole call aborts with the
cancellation error, returning no per-transaction results at all — in particular a
signal fired before the first transaction aborts the call with no
entries. -/
theorem cancellation_aborts :
    (∀ (B : Backend) (cancel : Nat → Option String) (cb : Nat) (tx : Tx) (rest : List Tx)
        (i : Nat) (st : LoopSt) (e : String), cancel i = some e →
        execLoop B cancel cb (tx :: rest) i st = .err e) ∧
    (∀ (B : Backend) (cancel : Nat → Option String) (args : CallBundleArgs) (e : String)
        (txs : List Tx) (state0 : StateDB) (parent : EvmHeader),
        args.txs.length ≠ 0 → args.blockNumber ≠ 0 →
        decodeAll B args.txs = .ok txs →
        B.stateAndHeader args.stateBlockNumber = .ok (state0, parent) →
        cancel 0 = some e →
        CallBundle B cancel args = .err e) := by
  constructor
  · intro B cancel cb tx rest i st e h
    simp [execLoop, h]
  · intro B cancel args e txs state0 parent h1 h2 hdec hsh hcan
    have hlen : txs.length = args.txs.length := decodeAll_length B args.txs txs hdec
    simp only [CallBundle]
    rw [if_neg h1, if_neg h2, hdec, hsh]
    cases txs with
    | nil => simp [← hlen] at h1
    | cons tx rest => simp [execLoop, hcan]

/-- Claim C8 witness: a deadline that has fired before the first
transaction aborts the concrete call with the cancellation error. -/
theorem cancellation_aborts_witness :
    cancelNow 0 = some "context deadline exceeded" ∧
    CallBundle sampleBackend cancelNow argsTwo = .err "context deadline exceeded" := by
  exact ⟨rfl, cancellation_aborts.2 sampleBackend cancelNow argsTwo
    "context deadline exceeded" [tx1, tx2] (mkState 5000) parentH (by decide) (by decide)
    rfl rfl rfl⟩

/-! ## Claim C10 -/

/-- Claim C10: all transaction encodings are decoded upfront, before the
state view is acquired and before any application: if any encoding fails
to decode, the call returns exactly that decode error for *every* choice
of state-resolution and execution oracles, i.e. without any state access
or execution. -/
theorem decode_upfront (B : Backend) (cancel : Nat → Option String)
    (args : CallBundleArgs) (e : String)
    (h1 : args.txs.length ≠ 0) (h2 : args.blockNumber ≠ 0)
    (hdec : decodeAll B args.txs = .error e) :
    ∀ B2 : Backend, B2.decodeTx = B.decodeTx → CallBundle B2 cancel args = .err e := by
  intro B2 hde
  simp only [CallBundle]
  rw [if_neg h1, if_neg h2, decodeAll_ext B B2 hde args.txs, hdec]

/-- Claim C10 witness: a malformed encoding yields the decode error even
when every post-decode collaborator is poisoned. -/
theorem decode_upfront_witness :
    decodeAll sampleBackend argsBadTx.txs = .error "rlp: malformed transaction" ∧
    unreachableBackend.decodeTx = sampleBackend.decodeTx ∧
    CallBundle unreachableBackend noCancel argsBadTx = .err "rlp: malformed transaction" := by
  exact ⟨rfl, rfl, decode_upfront sampleBackend noCancel argsBadTx
    "rlp: malformed transaction" (by decide) (by decide) rfl unreachableBackend rfl⟩

/-! ## Claim C3 -/

/-- Claim C3 (amended): a message-construction / EVM-setup (`GetEVM`)
failure aborts the whole bundle with the *raw* error (not annotated with
the transaction hash); an engine-invocation
(`ApplyTransactionWithResult`) failure aborts with the error annotated
with the failing transaction's hash; an in-VM failure is instead
recorded in that transaction's entry as `error` (plus `revert` exactly
when revert data exists) with no `value` field, and the loop continues
with the next transaction rather than erroring. -/
theorem failure_routing :
    (∀ (B : Backend) (cancel : Nat → Option String) (cb : Nat) (tx : Tx) (rest : List Tx)
        (i : Nat) (st : LoopSt) (e : String), cancel i = none →
        B.getEVM (st.state.setTxContext tx.hash i) st.header tx = .error e →
        execLoop B cancel cb (tx :: rest) i st = .err e) ∧
    (∀ (B : Backend) (cancel : Nat → Option String) (cb : Nat) (tx : Tx) (rest : List Tx)
        (i : Nat) (st : LoopSt) (evm msg : Nat) (e : String), cancel i = none →
        B.getEVM (st.state.setTxContext tx.hash i) st.header tx = .ok (evm, msg) →
        B.applyTx evm msg st.pool (st.state.setTxContext tx.hash i) st.header tx = .error e →
        execLoop B cancel cb (tx :: rest) i st = .err (annotateErr e tx)) ∧
    (∀ (B : Backend) (tx : Tx) (receipt : Receipt) (result : ExecResult)
        (header : EvmHeader) (cbBefore : Nat) (state : StateDB) (entry : TxResult)
        (m : String), result.errMsg = some m →
        processTransactionResult B tx receipt result header cbBefore state = some entry →
        entry.errorMsg = some m ∧ entry.value = none ∧
        (result.revertData ≠ [] → entry.revert = some (bytesAsString result.revertData)) ∧
        (result.revertData = [] → entry.revert = none)) ∧
    (∀ (B : Backend) (cancel : Nat → Option String) (cb : Nat) (tx : Tx) (rest : List Tx)
        (i : Nat) (st : LoopSt) (evm msg : Nat) (out : ApplyOut) (entry : TxResult)
        (tip : Int), cancel i = none →
        B.getEVM (st.state.setTxContext tx.hash i) st.header tx = .ok (evm, msg) →
        B.applyTx evm msg st.pool (st.state.setTxContext tx.hash i) st.header tx = .ok out →
        processTransactionResult B tx out.receipt out.result
          { st.header with gasUsed := out.newHeaderGasUsed } (st.state.balance cb)
          out.newState = some entry →
        B.effectiveGasTipPair tx st.header.baseFee = (tip, none) →
        execLoop B cancel cb (tx :: rest) i st =
          execLoop B cancel cb rest (i + 1)
            { state := out.newState
              header := { st.header with gasUsed := out.newHeaderGasUsed }
              pool := out.newPool
              totalGasUsed := (st.totalGasUsed + out.receipt.gasUsed) % two64
              gasFees := st.gasFees + toInt64 out.receipt.gasUsed * tip
              hashAcc := st.hashAcc ++ tx.hash
              results := st.results ++ [entry] }) := by
  refine ⟨?_, ?_, ?_, ?_⟩
  · intro B cancel cb tx rest i st e hc hevm
    simp [execLoop, hc, hevm]
  · intro B cancel cb tx rest i st evm msg e hc hevm happ
    simp [execLoop, hc, hevm, happ]
  · intro B tx receipt result header cbBefore state entry m hm hpr
    have hne : toInt64 receipt.gasUsed ≠ 0 := by
      intro h0
      rw [(processTransactionResult_none_iff B tx receipt result header cbBefore
        state).mpr h0] at hpr
      cases hpr
    rw [processTransactionResult_some B tx receipt result header cbBefore state hne] at hpr
    injection hpr with hpr
    subst hpr
    refine ⟨by simp [hm], by simp [hm], ?_, ?_⟩
    · intro hrv
      simp [hm, hrv]
    · intro hrv
      simp [hm, hrv]
  · intro B cancel cb tx rest i st evm msg out entry tip hc hevm happ hpr htip
    simp [execLoop, hc, hevm, happ, hpr, htip]

/-- Claim C3 counterexample: a `GetEVM` (message construction / engine
setup) failure propagates the raw error unannotated — the 66-character
transaction-hash string cannot occur in the 4-character error that the
call returns, refuting "annotated with that transaction's hash". -/
theorem getEVM_error_unannotated_counterexample :
    CallBundle evmFailBackend noCancel argsOne = .err "boom" ∧
    ¬ List.IsInfix (hashStr tx1.hash).toList "boom".toList := by
  exact ⟨rfl, by decide⟩

/-- Claim C3 witness: the annotated abort on an engine failure and the
recorded entry of a reverting transaction, on concrete fixtures. -/
theorem failure_routing_witness :
    noCancel 0 = none ∧
    applyFailBackend.applyTx 0 0 st0sample.pool (st0sample.state.setTxContext tx1.hash 0)
      st0sample.header tx1 = .error "nonce too low" ∧
    execLoop applyFailBackend noCancel 1234 [tx1] 0 st0sample =
      .err (annotateErr "nonce too low" tx1) ∧
    processTransactionResult sampleBackend tx1 { gasUsed := 21000, logs := [] } revertResult
      parentH 0 (mkState 0) = some revertEntry ∧
    (revertEntry.errorMsg = some "execution reverted" ∧ revertEntry.value = none ∧
      revertEntry.revert = some (bytesAsString revertResult.revertData)) := by
  have hc := failure_routing.2.2.1 sampleBackend tx1 { gasUsed := 21000, logs := [] }
    revertResult parentH 0 (mkState 0) revertEntry "execution reverted" rfl rfl
  exact ⟨rfl, rfl, failure_routing.2.1 applyFailBackend noCancel 1234 tx1 [] 0 st0sample
    0 0 "nonce too low" rfl rfl rfl, rfl, hc.1, hc.2.1, hc.2.2.1 (by decide)⟩

/-! ## Claim C4 -/

/-- Claim C4: per transaction, the reported `coinbaseDiff` is the
coinbase balance after the transaction minus the snapshot taken before
it, `gasFees` is gas used times the transaction's effective gas tip
under the header's base fee (for any gas value representable in
`int64`), and `ethSentToCoinbase` is their difference; bundle-wide, the
reported `coinbaseDiff` spans from the balance before the first
transaction to the balance after the last (not a sum of per-transaction
diffs), and `ethSentToCoinbase` is that diff minus the sum of the
per-transaction `gasFees`. -/
theorem economic_accounting :
    (∀ (B : Backend) (tx : Tx) (receipt : Receipt) (result : ExecResult)
        (header : EvmHeader) (cbBefore : Nat) (state : StateDB) (entry : TxResult),
        processTransactionResult B tx receipt result header cbBefore state = some entry →
        receipt.gasUsed < 2 ^ 63 →
        entry.coinbaseDiff = (state.balance header.coinbase : Int) - (cbBefore : Int) ∧
        entry.gasFees =
          (receipt.gasUsed : Int) * (B.effectiveGasTipPair tx header.baseFee).1 ∧
        entry.ethSentToCoinbase = entry.coinbaseDiff - entry.gasFees) ∧
    (∀ (results : List TxResult) (state : StateDB) (cbBefore cb : Nat) (fees : Int)
        (total : Nat) (parent : EvmHeader) (acc : List Nat) (r : BundleResponse),
        prepareFinalResult results state cbBefore cb fees total parent acc = some r →
        r.coinbaseDiff = (state.balance cb : Int) - (cbBefore : Int) ∧
        r.gasFees = fees ∧ r.ethSentToCoinbase = r.coinbaseDiff - r.gasFees) ∧
    (∀ (B : Backend) (cancel : Nat → Option String) (args : CallBundleArgs)
        (r : BundleResponse), CallBundle B cancel args = .ok r →
        ∃ (state0 : StateDB) (parent : EvmHeader) (stF : LoopSt),
          B.stateAndHeader args.stateBlockNumber = .ok (state0, parent) ∧
          r.coinbaseDiff =
            (stF.state.balance (synthesizeHeader B args parent).coinbase : Int) -
              (state0.balance (synthesizeHeader B args parent).coinbase : Int) ∧
          r.ethSentToCoinbase =
            r.coinbaseDiff - (r.results.map TxResult.gasFees).sum) := by
  refine ⟨?_, ?_, ?_⟩
  · intro B tx receipt result header cbBefore state entry hpr hsmall
    have hne : toInt64 receipt.gasUsed ≠ 0 := by
      intro h0
      rw [(processTransactionResult_none_iff B tx receipt result header cbBefore
        state).mpr h0] at hpr
      cases hpr
    rw [processTransactionResult_some B tx receipt result header cbBefore state hne] at hpr
    injection hpr with hpr
    subst hpr
    refine ⟨rfl, ?_, rfl⟩
    simp [toInt64_small receipt.gasUsed hsmall]
  · intro results state cbBefore cb fees total parent acc r hfin
    obtain ⟨-, hr⟩ := prepareFinalResult_some results state cbBefore cb fees total parent
      acc r hfin
    subst hr
    exact ⟨rfl, rfl, rfl⟩
  · intro B cancel args r hok
    obtain ⟨txs, state0, parent, stF, hdec, hsh, hloop, hfin⟩ :=
      CallBundle_ok_decomp B cancel args r hok
    obtain ⟨Δ, h1, h2, h3, h4, h5, h6⟩ :=
      execLoop_ok B cancel (synthesizeHeader B args parent).coinbase txs 0 _ stF
        (by norm_num [two64]) hloop
    obtain ⟨-, hr⟩ := prepareFinalResult_some _ _ _ _ _ _ _ _ _ hfin
    refine ⟨state0, parent, stF, hsh, ?_, ?_⟩
    · rw [hr]
    · rw [hr]
      simp only at h1 h4
      simp only [List.nil_append] at h1
      simp only [h1, h4]
      ring

/-- Claim C4 witness: the accounting identities observed on the sample
two-transaction bundle and on a concrete entry. -/
theorem economic_accounting_witness :
    CallBundle sampleBackend noCancel argsTwo = .ok runTwo ∧
    processTransactionResult sampleBackend tx1 { gasUsed := 21000, logs := [] } revertResult
      parentH 0 (mkState 0) = some revertEntry ∧
    (revertEntry.coinbaseDiff = ((mkState 0).balance parentH.coinbase : Int) - (0 : Int) ∧
      revertEntry.gasFees =
        (21000 : Int) *
          (sampleBackend.effectiveGasTipPair tx1 parentH.baseFee).1 ∧
      revertEntry.ethSentToCoinbase = revertEntry.coinbaseDiff - revertEntry.gasFees) ∧
    runTwo.ethSentToCoinbase = runTwo.coinbaseDiff - (runTwo.results.map TxResult.gasFees).sum := by
  have h1 := economic_accounting.1 sampleBackend tx1 { gasUsed := 21000, logs := [] }
    revertResult parentH 0 (mkState 0) revertEntry rfl (by norm_num)
  obtain ⟨s0, p, stF, -, -, h3⟩ :=
    economic_accounting.2.2 sampleBackend noCancel argsTwo runTwo rfl
  exact ⟨rfl, rfl, ⟨h1.1, h1.2.1, h1.2.2⟩, h3⟩

/-! ## Claim C6 -/

/-- Claim C6: when a bundle call succeeds under an engine respecting the
gas-pool contract, the response carries exactly one entry per submitted
transaction, in input order (the entries are keyed by the decoded
transactions' hashes in sequence), and `totalGasUsed` equals the exact
sum of the entries' receipt gas (the `uint64` accumulation cannot wrap,
because the `math.MaxUint64` pool bounds the total). -/
theorem bundle_results_shape (B : Backend) (cancel : Nat → Option String)
    (args : CallBundleArgs) (r : BundleResponse) (txs : List Tx)
    (hd : GasPoolDiscipline B)
    (hok : CallBundle B cancel args = .ok r)
    (hdec : decodeAll B args.txs = .ok txs) :
    r.results.length = args.txs.length ∧
    r.results.map TxResult.txHash = txs.map (fun t => hashStr t.hash) ∧
    r.totalGasUsed = (r.results.map TxResult.gasUsed).sum := by
  obtain ⟨txs2, state0, parent, stF, hdec2, hsh, hloop, hfin⟩ :=
    CallBundle_ok_decomp B cancel args r hok
  rw [hdec] at hdec2
  injection hdec2 with hdec2
  subst hdec2
  obtain ⟨Δ, h1, h2, h3, h4, h5, h6⟩ :=
    execLoop_ok B cancel (synthesizeHeader B args parent).coinbase txs 0 _ stF
      (by norm_num [two64]) hloop
  obtain ⟨-, hr⟩ := prepareFinalResult_some _ _ _ _ _ _ _ _ _ hfin
  simp only at h1 h3
  simp only [List.nil_append, Nat.zero_add] at h1 h3
  have hpool := h6 hd
  simp only at hpool
  have hsum : (Δ.map TxResult.gasUsed).sum < two64 := by
    have : (0 : Nat) < two64 := by norm_num [two64]
    omega
  rw [Nat.mod_eq_of_lt hsum] at h3
  subst hr
  refine ⟨?_, ?_, ?_⟩
  · have := congrArg List.length h2
    simp only [List.length_map] at this
    simp only [h1, List.length_map] at this ⊢
    rw [this, decodeAll_length B args.txs txs hdec]
  · simp only [h1, h2]
  · simp only [h1, h3]

/-- Claim C6 witness: the shape identities observed on the sample
two-transaction bundle. -/
theorem bundle_results_shape_witness :
    CallBundle sampleBackend noCancel argsTwo = .ok runTwo ∧
    decodeAll sampleBackend argsTwo.txs = .ok [tx1, tx2] ∧
    (runTwo.results.length = argsTwo.txs.length ∧
      runTwo.results.map TxResult.txHash = [tx1, tx2].map (fun t => hashStr t.hash) ∧
      runTwo.totalGasUsed = (runTwo.results.map TxResult.gasUsed).sum) := by
  exact ⟨rfl, rfl, bundle_results_shape sampleBackend noCancel argsTwo runTwo [tx1, tx2]
    sampleBackend_discipline rfl rfl⟩

/-! ## Claim C7 -/

/-- The bundle identifier of a successful call is the Keccak-256 digest
of the in-order concatenation of the transactions' hash bytes, hex
encoded with a `0x` prefix. -/
theorem bundleHash_eq (B : Backend) (cancel : Nat → Option String) (args : CallBundleArgs)
    (r : BundleResponse) (txs : List Tx)
    (hok : CallBundle B cancel args = .ok r)
    (hdec : decodeAll B args.txs = .ok txs) :
    r.bundleHash = "0x" ++ bytesToHex (keccak256 (concatBytes (txs.map Tx.hash))) := by
  obtain ⟨txs2, state0, parent, stF, hdec2, hsh, hloop, hfin⟩ :=
    CallBundle_ok_decomp B cancel args r hok
  rw [hdec] at hdec2
  injection hdec2 with hdec2
  subst hdec2
  obtain ⟨Δ, h1, h2, h3, h4, h5, h6⟩ :=
    execLoop_ok B cancel (synthesizeHeader B args parent).coinbase txs 0 _ stF
      (by norm_num [two64]) hloop
  obtain ⟨-, hr⟩ := prepareFinalResult_some _ _ _ _ _ _ _ _ _ hfin
  simp only at h5
  simp only [List.nil_append] at h5
  rw [hr]
  simp only [h5]

/-- Concatenation of fixed-width 32-byte blocks is injective: two
different ordered hash sequences always feed different byte strings to
the digest. -/
theorem concatBytes_injective :
    ∀ l1 l2 : List (List Nat), (∀ h ∈ l1, List.length h = 32) →
      (∀ h ∈ l2, List.length h = 32) → l1 ≠ l2 → concatBytes l1 ≠ concatBytes l2 := by
  intro l1
  induction l1 with
  | nil =>
    intro l2 h1 h2 hne
    cases l2 with
    | nil => exact absurd rfl hne
    | cons y s =>
      intro h
      have hy : List.length y = 32 := h2 y (by simp)
      rw [concatBytes_cons] at h
      cases y with
      | nil => simp at hy
      | cons b bs => simp [concatBytes] at h
  | cons x t ih =>
    intro l2 h1 h2 hne
    cases l2 with
    | nil =>
      intro h
      have hx : List.length x = 32 := h1 x (by simp)
      rw [concatBytes_cons] at h
      cases x with
      | nil => simp at hx
      | cons b bs => simp [concatBytes] at h
    | cons y s =>
      intro h
      have hx : List.length x = 32 := h1 x (by simp)
      have hy : List.length y = 32 := h2 y (by simp)
      rw [concatBytes_cons, concatBytes_cons] at h
      obtain ⟨hxy, hts⟩ := List.append_inj h (by rw [hx, hy])
      have hts' : t ≠ s := by
        intro he
        exact hne (by rw [hxy, he])
      exact ih s (fun a ha => h1 a (by simp [ha])) (fun a ha => h2 a (by simp [ha])) hts' hts

/-- Claim C7 (amended): `bundleHash` is the 0x-prefixed hex encoding of
the Keccak-256 digest of the transactions' hash bytes concatenated in
execution order; two successful calls over identical ordered transaction
hashes therefore yield the identical digest; and any reordering that
changes the ordered hash sequence changes the byte string fed to the
digest (a permutation that fixes the ordered hash sequence — e.g.
swapping duplicate transactions — leaves the digest unchanged). -/
theorem bundleHash_spec :
    (∀ (B : Backend) (cancel : Nat → Option String) (args : CallBundleArgs)
        (r : BundleResponse) (txs : List Tx),
        CallBundle B cancel args = .ok r → decodeAll B args.txs = .ok txs →
        r.bundleHash = "0x" ++ bytesToHex (keccak256 (concatBytes (txs.map Tx.hash)))) ∧
    (∀ (B B2 : Backend) (cancel cancel2 : Nat → Option String)
        (args args2 : CallBundleArgs) (r r2 : BundleResponse) (txs txs2 : List Tx),
        CallBundle B cancel args = .ok r → decodeAll B args.txs = .ok txs →
        CallBundle B2 cancel2 args2 = .ok r2 → decodeAll B2 args2.txs = .ok txs2 →
        txs.map Tx.hash = txs2.map Tx.hash → r.bundleHash = r2.bundleHash) ∧
    (∀ l1 l2 : List (List Nat), (∀ h ∈ l1, List.length h = 32) →
      (∀ h ∈ l2, List.length h = 32) → l1 ≠ l2 → concatBytes l1 ≠ concatBytes l2) := by
  refine ⟨bundleHash_eq, ?_, concatBytes_injective⟩
  intro B B2 cancel cancel2 args args2 r r2 txs txs2 hok hdec hok2 hdec2 hsame
  rw [bundleHash_eq B cancel args r txs hok hdec,
    bundleHash_eq B2 cancel2 args2 r2 txs2 hok2 hdec2, hsame]

/-- Claim C7 counterexample: reordering the transactions of a bundle
that contains the same transaction twice leaves `bundleHash` (indeed the
whole successful response) unchanged, refuting "reordering the
transactions changes the digest" as universally stated. -/
theorem bundleHash_reorder_counterexample :
    argsDupRev.txs = argsDup.txs.reverse ∧
    (CallBundle sampleBackend noCancel argsDup).isOk = true ∧
    (extractOk (CallBundle sampleBackend noCancel argsDupRev)).bundleHash =
      (extractOk (CallBundle sampleBackend noCancel argsDup)).bundleHash := by
  exact ⟨rfl, rfl, rfl⟩

/-- Claim C7 witness: the digest equation on the sample bundle, and the
order-sensitivity of the digest input on two distinct hashes. -/
theorem bundleHash_spec_witness :
    CallBundle sampleBackend noCancel argsTwo = .ok runTwo ∧
    decodeAll sampleBackend argsTwo.txs = .ok [tx1, tx2] ∧
    runTwo.bundleHash =
      "0x" ++ bytesToHex (keccak256 (concatBytes ([tx1, tx2].map Tx.hash))) ∧
    (∀ h ∈ [mkHash 1, mkHash 2], List.length h = 32) ∧
    [mkHash 1, mkHash 2] ≠ [mkHash 2, mkHash 1] ∧
    concatBytes [mkHash 1, mkHash 2] ≠ concatBytes [mkHash 2, mkHash 1] := by
  exact ⟨rfl, rfl,
    bundleHash_spec.1 sampleBackend noCancel argsTwo runTwo [tx1, tx2] rfl rfl,
    by decide, by decide,
    bundleHash_spec.2.2 [mkHash 1, mkHash 2] [mkHash 2, mkHash 1] (by decide) (by decide)
      (by decide)⟩

/-! ## Claim C9 -/

/-- Claim C9: the single-transaction previewer synthesizes its header on
top of the current chain head, fails the call when the transaction
cannot be located, and otherwise performs exactly one application with
the gas pool set to the transaction's own declared gas limit, returning
the receipt's log sequence — so a transaction emitting no events yields
an empty list, not an error. -/
theorem simulateTx_spec :
    (∀ B : FilterBackend,
        (simulateHeader B).parentHash = B.currentBlock.hash ∧
        (simulateHeader B).number = B.currentBlock.number + 1 ∧
        (simulateHeader B).coinbase = B.currentBlock.coinbase ∧
        (simulateHeader B).gasLimit = B.currentBlock.gasLimit) ∧
    (∀ (B : FilterBackend) (h : List Nat) (e : String),
        B.getTransaction h = .error e → simulateTx B h = .error e) ∧
    (∀ (B : FilterBackend) (h : List Nat) (tx : Tx) (state : StateDB) (parent : EvmHeader)
        (evm msg : Nat) (out : ApplyOut),
        B.getTransaction h = .ok tx →
        B.stateAndHeader B.currentBlock.number = .ok (state, parent) →
        B.getEVM (state.setTxContext tx.hash 0) (simulateHeader B) tx = .ok (evm, msg) →
        B.applyTx evm msg tx.gas (state.setTxContext tx.hash 0) (simulateHeader B) tx =
          .ok out →
        simulateTx B h = .ok out.receipt.logs) := by
  refine ⟨fun B => ⟨rfl, rfl, rfl, rfl⟩, ?_, ?_⟩
  · intro B h e hget
    simp [simulateTx, hget]
  · intro B h tx state parent evm msg out hget hsh hevm happ
    simp [simulateTx, hget, hsh, hevm, happ]

/-- Claim C9 witness: a located zero-log transaction previews to an
empty log list, and an unknown identifier fails the call. -/
theorem simulateTx_spec_witness :
    sampleFilterBackend.getTransaction (mkHash 1) = .ok tx1 ∧
    simulateTx sampleFilterBackend (mkHash 1) = .ok [] ∧
    sampleFilterBackend.getTransaction (mkHash 9) = .error "transaction not found" ∧
    simulateTx sampleFilterBackend (mkHash 9) = .error "transaction not found" := by
  refine ⟨rfl, ?_, rfl, simulateTx_spec.2.1 sampleFilterBackend (mkHash 9)
    "transaction not found" rfl⟩
  exact simulateTx_spec.2.2 sampleFilterBackend (mkHash 1) tx1 (mkState 5000) parentH 0 0
    _ rfl rfl rfl rfl

end Sonic
